import Mathlib

/-!
Verification development for the TetrisForge repository
(`src/tetrisforge/tetris.py`).

The Python source is shallowly embedded below.  Mutable objects become
immutable Lean structures threaded through explicit state passing; Python
lists become `List ℕ`; Python ints become `ℤ`/`ℕ`; the floating `Board.Speed`
value becomes `ℚ` (all values actually reached, 300·(3/4)^k for small k, are
exact in both binary floating point and `ℚ`); fallible code returns
`Except`/`Option`.  Qt collaborators (timers, key events, painting) are
modelled per their contract: a timer holds an `active` flag and an interval,
and a stopped timer delivers no events; painting/label updates are cosmetic
and carry no game state, so they are not modelled.  `random.shuffle` is an
external randomness source: refills of the piece bag consume successive
values of an explicit stream `shuffles : ℕ → List ℕ`; its contract (the
stream yields permutations of `[1..7]`) is an explicit hypothesis where
needed.  Status-bar emissions (`msg2Statusbar.emit`) are modelled as a
growing message list.
-/

namespace TetrisForge

/-! ## Tetrominoe shape enumeration (class `Tetrominoe`) -/

def Tetrominoe.NoShape : ℕ := 0
def Tetrominoe.ZShape : ℕ := 1
def Tetrominoe.SShape : ℕ := 2
def Tetrominoe.LineShape : ℕ := 3
def Tetrominoe.TShape : ℕ := 4
def Tetrominoe.SquareShape : ℕ := 5
def Tetrominoe.LShape : ℕ := 6
def Tetrominoe.MirroredLShape : ℕ := 7

/-- Model of `Shape.coordsTable` from the source: the 8 rows of 4 relative
`(x, y)` offsets, indexed by the shape number.  Indices above 7 cannot occur
(the Python tuple lookup would raise); the catch-all row mirrors row 0. -/
def coordsTable : ℕ → Fin 4 → ℤ × ℤ
  | 0 => fun _ => (0, 0)
  | 1 => fun i => [((0 : ℤ), (-1 : ℤ)), (0, 0), (-1, 0), (-1, 1)].getD i.val (0, 0)
  | 2 => fun i => [((0 : ℤ), (-1 : ℤ)), (0, 0), (1, 0), (1, 1)].getD i.val (0, 0)
  | 3 => fun i => [((0 : ℤ), (-1 : ℤ)), (0, 0), (0, 1), (0, 2)].getD i.val (0, 0)
  | 4 => fun i => [((-1 : ℤ), (0 : ℤ)), (0, 0), (1, 0), (0, 1)].getD i.val (0, 0)
  | 5 => fun i => [((0 : ℤ), (0 : ℤ)), (1, 0), (0, 1), (1, 1)].getD i.val (0, 0)
  | 6 => fun i => [((-1 : ℤ), (-1 : ℤ)), (0, -1), (0, 0), (0, 1)].getD i.val (0, 0)
  | 7 => fun i => [((1 : ℤ), (-1 : ℤ)), (0, -1), (0, 0), (0, 1)].getD i.val (0, 0)
  | _ => fun _ => (0, 0)

/-- Class `Shape`: a piece kind together with its 4 current `(x, y)`
offset pairs (the Python `coords` list of four 2-element lists). -/
structure Shape where
  piece_shape : ℕ
  coords : Fin 4 → ℤ × ℤ

instance : DecidableEq Shape := fun a b =>
  decidable_of_iff (a.piece_shape = b.piece_shape ∧ a.coords = b.coords)
    (by cases a; cases b; simp)

/-- Model of `Shape.set_shape`: overwrite the coordinates from `coordsTable` and
record the shape number.  (The Python method mutates in place; the model
returns the resulting shape value.) -/
def Shape.set_shape (shape : ℕ) : Shape :=
  ⟨shape, coordsTable shape⟩

/-- Model of `Shape.x(index)`. -/
def Shape.x (s : Shape) (i : Fin 4) : ℤ := (s.coords i).1

/-- Model of `Shape.y(index)`. -/
def Shape.y (s : Shape) (i : Fin 4) : ℤ := (s.coords i).2

/-- Model of `Shape.min_y`: minimum of the four y offsets (the Python loop seeds the
accumulator with `coords[0][1]` and then folds `min` over all four). -/
def Shape.min_y (s : Shape) : ℤ :=
  min (min (min (min (s.y 0) (s.y 0)) (s.y 1)) (s.y 2)) (s.y 3)

/-- Model of `Shape.rotate_left`: identity on the Square shape, otherwise a new shape
with each `(x, y)` replaced by `(y, -x)`. -/
def Shape.rotate_left (s : Shape) : Shape :=
  if s.piece_shape = Tetrominoe.SquareShape then s
  else ⟨s.piece_shape, fun i => ((s.coords i).2, -(s.coords i).1)⟩

/-- Model of `Shape.rotate_right`: identity on the Square shape, otherwise a new
shape with each `(x, y)` replaced by `(-y, x)`. -/
def Shape.rotate_right (s : Shape) : Shape :=
  if s.piece_shape = Tetrominoe.SquareShape then s
  else ⟨s.piece_shape, fun i => (-(s.coords i).2, (s.coords i).1)⟩

/-! ## Board / game-engine state (class `Board`)

`Board.board_width = 10`, `Board.BoardHeight = 22`.  The Qt timers are
modelled by an `active` flag (plus the main timer's interval); the key-repeat
timers only re-fire the same movement handlers and carry no game state, so
they are not modelled.  `refills` is model bookkeeping: it indexes the
external randomness stream consumed by `random.shuffle` at each bag refill.
-/

structure GState where
  board : List ℕ
  cur_x : ℤ
  cur_y : ℤ
  current_piece : Shape
  next_piece : Shape
  hold_piece : Shape
  hold_locked : Bool
  is_started : Bool
  is_paused : Bool
  is_waiting_after_line : Bool
  is_landed : Bool
  num_lines_removed : ℕ
  lines_to_goal : ℕ
  goal : ℕ
  num_goals_reached : ℕ
  speed : ℚ
  timerActive : Bool
  timer_interval : ℤ
  finalizeTimerActive : Bool
  bag : List ℕ
  refills : ℕ
  messages : List String
  deriving DecidableEq

/-- Python `int()` applied to the (nonnegative, in practice) float speed:
truncation toward zero. -/
def pyInt (q : ℚ) : ℤ := q.num.tdiv (q.den : ℤ)

/-- Model of `Board.shape_at(x, y)`: read `board[y*10 + x]` (natural-number indices,
as produced by the in-range loops of the source). -/
def shape_at (b : List ℕ) (x y : ℕ) : ℕ := b.getD (y * 10 + x) 0

/-- Model of `Board.set_shape_at(x, y, shape)`: write `board[y*10 + x]`. -/
def set_shape_at (b : List ℕ) (x y : ℕ) (v : ℕ) : List ℕ := b.set (y * 10 + x) v

/-- Model of `shape_at` at integer coordinates (callers guarantee nonnegative,
in-range indices; `Int.toNat` realises that precondition). -/
def shape_atZ (b : List ℕ) (x y : ℤ) : ℕ := shape_at b x.toNat y.toNat

/-- Model of `set_shape_at` at integer coordinates. -/
def set_shape_atZ (b : List ℕ) (x y : ℤ) (v : ℕ) : List ℕ :=
  set_shape_at b x.toNat y.toNat v

/-- One iteration of the `try_move` loop body: offset `i` of `new_piece`
lands in bounds on an empty cell. -/
def cellFree (s : GState) (p : Shape) (new_x new_y : ℤ) (i : Fin 4) : Bool :=
  let x := new_x + p.x i
  let y := new_y - p.y i
  decide (0 ≤ x) && decide (x < 10) && decide (0 ≤ y) && decide (y < 22) &&
    (shape_atZ s.board x y == Tetrominoe.NoShape)

/-- Model of `Board.try_move(new_piece, new_x, new_y)`: the four loop iterations in
order; any violation returns `false` with the state untouched, otherwise the
current piece and position are committed. -/
def try_move (s : GState) (p : Shape) (new_x new_y : ℤ) : Bool × GState :=
  if cellFree s p new_x new_y 0 && cellFree s p new_x new_y 1 &&
      cellFree s p new_x new_y 2 && cellFree s p new_x new_y 3 then
    (true, { s with current_piece := p, cur_x := new_x, cur_y := new_y })
  else
    (false, s)

/-! ## Line clearing (`Board.remove_full_lines`) -/

/-- The per-row occupancy count `n` of `remove_full_lines`: how many of the
10 cells of row `i` hold a landed (non-`NoShape`) value. -/
def rowCount (b : List ℕ) (i : ℕ) : ℕ :=
  ((List.range 10).filter fun j => shape_at b j i != Tetrominoe.NoShape).length

/-- A row is collected for removal when its count equals the literal `10`. -/
def rowFull (b : List ℕ) (i : ℕ) : Bool := rowCount b i == 10

/-- Model of `rows_to_remove` after the scan and the `reverse()` call: full-row
indices of rows `0..21` in decreasing order. -/
def rowsToRemove (b : List ℕ) : List ℕ :=
  ((List.range 22).filter fun i => rowFull b i).reverse

/-- Inner loop `for l in range(10)`: copy row `k+1` of the evolving board
down into row `k`, column by column. -/
def copyRowDown (b : List ℕ) (k : ℕ) : List ℕ :=
  (List.range 10).foldl (fun b' l => set_shape_at b' l k (shape_at b' l (k + 1))) b

/-- Final loop of one removal: zero row 21 (`BoardHeight - 1`). -/
def zeroTopRow (b : List ℕ) : List ℕ :=
  (List.range 10).foldl (fun b' l => set_shape_at b' l 21 Tetrominoe.NoShape) b

/-- Removal of one row `m`: `for k in range(m, 21)` copy each row down,
then zero the top row. -/
def removeRow (b : List ℕ) (m : ℕ) : List ℕ :=
  zeroTopRow ((List.range' m (21 - m)).foldl copyRowDown b)

/-- Model of `Board.remove_full_lines`: remove all full rows (highest first), then —
when at least one row was removed — update the line counters, emit the new
total, enter the line-clear pause, blank the current piece, and apply the
leveling rule (`goal`, `lines_to_goal`, `num_goals_reached`,
`Board.Speed -= Board.Speed / 4`, restart the tick timer at the new integer
interval). -/
def remove_full_lines (s : GState) : GState :=
  let rows := rowsToRemove s.board
  let s := { s with board := rows.foldl removeRow s.board }
  if 0 < rows.length then
    let s := { s with
      num_lines_removed := s.num_lines_removed + rows.length
      messages := s.messages ++ [toString (s.num_lines_removed + rows.length)]
      is_waiting_after_line := true
      current_piece := Shape.set_shape Tetrominoe.NoShape
      lines_to_goal := s.lines_to_goal + rows.length }
    if s.goal ≤ s.lines_to_goal then
      let speed' := s.speed - s.speed / 4
      { s with
        goal := if s.num_goals_reached ≠ 0 then 5 * s.num_goals_reached + s.goal
                else 5 + s.goal
        lines_to_goal := 0
        num_goals_reached := s.num_goals_reached + 1
        speed := speed'
        timerActive := true
        timer_interval := pyInt speed' }
    else s
  else s

/-! ## Bag randomizer (`Board.get_next_shape`) -/

/-- The bag core of `get_next_shape`, acting on `(bag, refills)`:
on an empty bag, install the next shuffled permutation of `[1..7]` from the
randomness stream; then pop from the end (`list.pop()`).  The pop default
`0` is unreachable when the stream honours the `random.shuffle` contract
(it permutes `list(range(1, 8))`, so refilled bags are nonempty). -/
def get_next_shape_core (shuffles : ℕ → List ℕ) :
    List ℕ × ℕ → ℕ × (List ℕ × ℕ) := fun st =>
  let bag := if st.1.isEmpty then shuffles st.2 else st.1
  let refills := if st.1.isEmpty then st.2 + 1 else st.2
  (bag.getLastD 0, (bag.dropLast, refills))

/-- Model of `Board.get_next_shape` on the full state. -/
def get_next_shape (shuffles : ℕ → List ℕ) (s : GState) : ℕ × GState :=
  let (k, st) := get_next_shape_core shuffles (s.bag, s.refills)
  (k, { s with bag := st.1, refills := st.2 })

/-- Draw `n` shapes in sequence from a bag state (iterating
`get_next_shape`); returns the drawn shapes in order plus the final state. -/
def drawN (shuffles : ℕ → List ℕ) (st : List ℕ × ℕ) : ℕ → List ℕ × (List ℕ × ℕ)
  | 0 => ([], st)
  | n + 1 =>
    let (d, st') := get_next_shape_core shuffles st
    let (ds, st'') := drawN shuffles st' n
    (d :: ds, st'')

/-! ## Spawning, holding, locking -/

/-- Model of `Board.new_piece`: promote the next piece (reset to its canonical
orientation via `set_shape`), draw a fresh next piece from the bag, place at
the spawn position `(board_width // 2 + 1, BoardHeight - 1 + min_y)`, and on
collision blank the piece, stop both timers, end the game and emit the
single "Game over" notification. -/
def new_piece (shuffles : ℕ → List ℕ) (s : GState) : GState :=
  let cp := Shape.set_shape s.next_piece.piece_shape
  let (k, s) := get_next_shape shuffles s
  let s := { s with
    current_piece := cp
    next_piece := Shape.set_shape k
    cur_x := 6
    cur_y := 21 + cp.min_y }
  let (ok, s') := try_move s s.current_piece s.cur_x s.cur_y
  if ok then s'
  else
    { s' with
      current_piece := Shape.set_shape Tetrominoe.NoShape
      timerActive := false
      finalizeTimerActive := false
      is_started := false
      messages := s'.messages ++ ["Game over"] }

/-- Model of `Board.hold_current_piece`: a no-op while `hold_locked`; otherwise
either stash the current piece kind and spawn (first hold), or swap with the
held piece at the spawn position (game over on collision, exactly as in
`new_piece`); afterwards `hold_locked := true`. -/
def hold_current_piece (shuffles : ℕ → List ℕ) (s : GState) : GState :=
  if s.hold_locked = false then
    let s :=
      if s.hold_piece.piece_shape = Tetrominoe.NoShape then
        new_piece shuffles
          { s with hold_piece := Shape.set_shape s.current_piece.piece_shape }
      else
        let s := { s with
          current_piece := s.hold_piece
          hold_piece := s.current_piece
          cur_x := 6
          cur_y := 21 + s.hold_piece.min_y }
        let (ok, s') := try_move s s.current_piece s.cur_x s.cur_y
        if ok then s'
        else
          { s' with
            current_piece := Shape.set_shape Tetrominoe.NoShape
            timerActive := false
            finalizeTimerActive := false
            is_started := false
            messages := s'.messages ++ ["Game over"] }
    { s with hold_locked := true }
  else s

/-- The write-out loop of `finalize_piece`: commit the current piece's 4
cells into the grid. -/
def writeCurrentPiece (s : GState) : GState :=
  { s with
    board :=
      (List.finRange 4).foldl
        (fun b i =>
          set_shape_atZ b (s.cur_x + s.current_piece.x i)
            (s.cur_y - s.current_piece.y i) s.current_piece.piece_shape)
        s.board }

/-- Model of `Board.finalize_piece`: stop the finalize timer, write the piece into
the grid, clear full lines, drop the landed flag, and — unless a line-clear
pause was entered — spawn the next piece and unlock hold. -/
def finalize_piece (shuffles : ℕ → List ℕ) (s : GState) : GState :=
  let s := { s with finalizeTimerActive := false }
  let s := writeCurrentPiece s
  let s := remove_full_lines s
  let s := { s with is_landed := false }
  if s.is_waiting_after_line = false then
    { new_piece shuffles s with hold_locked := false }
  else s

/-- Model of `Board.piece_dropped`. -/
def piece_dropped (shuffles : ℕ → List ℕ) (s : GState) : GState :=
  finalize_piece shuffles { s with is_landed := true }

/-! ## Movement, rotation, gravity, input -/

/-- Model of `Board.move_left`. -/
def move_left (s : GState) : GState :=
  (try_move s s.current_piece (s.cur_x - 1) s.cur_y).2

/-- Model of `Board.move_right`. -/
def move_right (s : GState) : GState :=
  (try_move s s.current_piece (s.cur_x + 1) s.cur_y).2

/-- Model of `Board.move_down`. -/
def move_down (shuffles : ℕ → List ℕ) (s : GState) : GState :=
  let (ok, s') := try_move s s.current_piece s.cur_x (s.cur_y - 1)
  if ok then s' else piece_dropped shuffles s'

/-- Model of `Board.one_line_down` (same body as `move_down` in the source). -/
def one_line_down (shuffles : ℕ → List ℕ) (s : GState) : GState :=
  let (ok, s') := try_move s s.current_piece s.cur_x (s.cur_y - 1)
  if ok then s' else piece_dropped shuffles s'

/-- The `while new_y > 0` loop of `drop_down`. -/
def dropLoop (s : GState) (new_y : ℤ) : GState :=
  if h : 0 < new_y then
    let r := try_move s s.current_piece s.cur_x (new_y - 1)
    if r.1 then dropLoop r.2 (new_y - 1) else r.2
  else s
termination_by new_y.toNat
decreasing_by omega

/-- Model of `Board.drop_down`. -/
def drop_down (shuffles : ℕ → List ℕ) (s : GState) : GState :=
  piece_dropped shuffles (dropLoop s s.cur_y)

/-- Model of `Board.try_rotate_right`: compute the clockwise rotation and try it in
place, then shifted left, right, up, down by one cell; the first success
wins and a total failure leaves the state untouched (each failed `try_move`
returns the state unchanged). -/
def try_rotate_right (s : GState) : GState :=
  let np := s.current_piece.rotate_right
  let r0 := try_move s np s.cur_x s.cur_y
  if r0.1 then r0.2 else
  let r1 := try_move r0.2 np (r0.2.cur_x - 1) r0.2.cur_y
  if r1.1 then r1.2 else
  let r2 := try_move r1.2 np (r1.2.cur_x + 1) r1.2.cur_y
  if r2.1 then r2.2 else
  let r3 := try_move r2.2 np r2.2.cur_x (r2.2.cur_y + 1)
  if r3.1 then r3.2 else
  (try_move r3.2 np r3.2.cur_x (r3.2.cur_y - 1)).2

/-- Model of `Board.pause`: toggle the paused flag, stopping or restarting the tick
timer (at the current `Board.Speed`), with the matching status message. -/
def pause (s : GState) : GState :=
  if s.is_started = false then s
  else if s.is_paused = false then
    { s with
      is_paused := true
      timerActive := false
      finalizeTimerActive := false
      messages := s.messages ++ ["Paused"] }
  else
    { s with
      is_paused := false
      timerActive := true
      timer_interval := pyInt s.speed
      messages := s.messages ++ [toString s.num_lines_removed] }

/-- The key-down actions routed by `Board.keyPressEvent`. -/
inductive Key where
  | left | right | down | space | up | c | p | other
  deriving DecidableEq

/-- Model of `Board.keyPressEvent`: ignored entirely when the game is not started or
the current piece is blank; `P` toggles pause; every other key is ignored
while paused, otherwise dispatches to the movement/rotation/hold actions. -/
def keyPressEvent (shuffles : ℕ → List ℕ) (k : Key) (s : GState) : GState :=
  if s.is_started = false ∨ s.current_piece.piece_shape = Tetrominoe.NoShape then s
  else if k = Key.p then pause s
  else if s.is_paused then s
  else
    match k with
    | Key.left => move_left s
    | Key.right => move_right s
    | Key.down => move_down shuffles s
    | Key.space => drop_down shuffles s
    | Key.up => try_rotate_right s
    | Key.c => hold_current_piece shuffles s
    | _ => s

/-- Model of `Board.timerEvent` for the main tick timer: a stopped timer delivers no
events (the timer collaborator's contract), and an active one either ends
the line-clear pause by spawning or applies one gravity step. -/
def tick (shuffles : ℕ → List ℕ) (s : GState) : GState :=
  if s.timerActive = false then s
  else if s.is_waiting_after_line then
    new_piece shuffles { s with is_waiting_after_line := false }
  else one_line_down shuffles s

/-- The five candidate positions of `try_rotate_right`, in source order:
in place, one cell left, one cell right, one cell up, one cell down. -/
def rotAttempt (s : GState) : Fin 5 → ℤ × ℤ := fun j =>
  match j with
  | 0 => (s.cur_x, s.cur_y)
  | 1 => (s.cur_x - 1, s.cur_y)
  | 2 => (s.cur_x + 1, s.cur_y)
  | 3 => (s.cur_x, s.cur_y + 1)
  | 4 => (s.cur_x, s.cur_y - 1)

/-- Whether the rotated piece fits at the `j`-th candidate position. -/
def canRotAt (s : GState) (j : Fin 5) : Bool :=
  (try_move s s.current_piece.rotate_right (rotAttempt s j).1 (rotAttempt s j).2).1

/-! ## Join code (module functions `ipv4_port_to_base64` / `base64_to_ipv4_port`)

Python strings are modelled as lists of Unicode code points (`List ℕ`) and
byte strings as lists of byte values; `'.'` is code point 46, `'='` 61.
-/

/-- The standard base64 alphabet: the code point encoding sextet `v`. -/
def b64Char (v : ℕ) : ℕ :=
  if v < 26 then 65 + v
  else if v < 52 then 97 + (v - 26)
  else if v < 62 then 48 + (v - 52)
  else if v = 62 then 43
  else 47

/-- Inverse alphabet lookup; `none` for characters outside the alphabet. -/
def b64Val (c : ℕ) : Option ℕ :=
  if 65 ≤ c ∧ c ≤ 90 then some (c - 65)
  else if 97 ≤ c ∧ c ≤ 122 then some (c - 97 + 26)
  else if 48 ≤ c ∧ c ≤ 57 then some (c - 48 + 52)
  else if c = 43 then some 62
  else if c = 47 then some 63
  else none

/-- Model of `base64.b64encode`: 3-byte groups become 4 alphabet characters; a final
group of 1 or 2 bytes is completed with `=` padding.  (The source only ever
encodes 6 bytes, which needs no padding.) -/
def pyB64Encode : List ℕ → List ℕ
  | a :: b :: c :: rest =>
    b64Char (a / 4) :: b64Char (a % 4 * 16 + b / 16) ::
      b64Char (b % 16 * 4 + c / 64) :: b64Char (c % 64) :: pyB64Encode rest
  | [a] => [b64Char (a / 4), b64Char (a % 4 * 16), 61, 61]
  | [a, b] => [b64Char (a / 4), b64Char (a % 4 * 16 + b / 16), b64Char (b % 16 * 4), 61]
  | [] => []

/-- Decoder state of `binascii.a2b_base64` (lenient default mode):
accumulated output bytes, position within the current 4-character quad, the
pending bits, and the number of padding characters seen. -/
structure B64State where
  acc : List ℕ
  quad_pos : ℕ
  leftchar : ℕ
  pads : ℕ

/-- One data character of value `v` in the a2b loop.  Every data character
resets the pad counter (`pads = 0` in `binascii.c`), so only a run of `=`
that completes the current quad without intervening data ends decoding. -/
def b64DataStep (st : B64State) (v : ℕ) : B64State :=
  match st.quad_pos with
  | 0 => { st with leftchar := v, quad_pos := 1, pads := 0 }
  | 1 =>
    { st with
      acc := st.acc ++ [st.leftchar * 4 + v / 16]
      leftchar := v % 16
      quad_pos := 2
      pads := 0 }
  | 2 =>
    { st with
      acc := st.acc ++ [st.leftchar * 16 + v / 4]
      leftchar := v % 4
      quad_pos := 3
      pads := 0 }
  | _ =>
    { st with
      acc := st.acc ++ [st.leftchar * 64 + v]
      leftchar := 0
      quad_pos := 0
      pads := 0 }

/-- The character loop of `binascii.a2b_base64` in lenient (default) mode:
characters outside the alphabet are discarded; `=` at quad position ≥ 2
counts toward the padding and completes decoding once the quad is closed
(`=` earlier in a quad is ignored); input ending at quad position 1, 2 or 3
raises `binascii.Error` (not-1-more-than-a-multiple-of-4 / incorrect
padding). -/
def pyB64DecodeAux : List ℕ → B64State → Except Unit (List ℕ)
  | [], st => if st.quad_pos = 0 then .ok st.acc else .error ()
  | c :: rest, st =>
    if c = 61 then
      if 2 ≤ st.quad_pos then
        if 4 ≤ st.quad_pos + (st.pads + 1) then .ok st.acc
        else pyB64DecodeAux rest { st with pads := st.pads + 1 }
      else pyB64DecodeAux rest st
    else
      match b64Val c with
      | none => pyB64DecodeAux rest st
      | some v => pyB64DecodeAux rest (b64DataStep st v)

/-- The failure modes of `base64_to_ipv4_port` as the code stands: the
plain `ValueError` raised by `b64decode`'s ASCII re-encoding of a `str`
argument, `binascii.Error` raised by `a2b_base64`, and `struct.error`
raised by the two `unpack` calls.  `malformedCodeError` stands for the
spec's dedicated `MalformedCodeError`, which nothing in the source defines
or raises. -/
inductive PyError where
  | valueError
  | binasciiError
  | structError
  | malformedCodeError
  deriving DecidableEq

/-- Model of `base64.b64decode` on a token string: a `str` argument is
first re-encoded as ASCII (`ValueError` on any code point ≥ 128), then fed
to the lenient `a2b_base64` loop. -/
def pyB64Decode (tok : List ℕ) : Except PyError (List ℕ) :=
  if ∀ c ∈ tok, c < 128 then
    match pyB64DecodeAux tok ⟨[], 0, 0, 0⟩ with
    | .error _ => .error .binasciiError
    | .ok bytes => .ok bytes
  else .error .valueError

/-- Decimal digits of `n`, least significant first (fuel-based so that it
evaluates by kernel reduction; agrees with `Nat.digits 10` when
`n ≤ fuel`). -/
def decDigitsAux : ℕ → ℕ → List ℕ
  | 0, _ => []
  | fuel + 1, n => if n = 0 then [] else n % 10 :: decDigitsAux fuel (n / 10)

/-- Python `str` of a natural number: canonical decimal code points. -/
def decRepr (n : ℕ) : List ℕ :=
  if n = 0 then [48] else (decDigitsAux n n).reverse.map (· + 48)

/-- Python `int()` restricted to the forms reached here: a nonempty string
of ASCII digits parses to its value; anything else raises (`none`). -/
def parseDec (l : List ℕ) : Option ℕ :=
  if l ≠ [] ∧ ∀ c ∈ l, 48 ≤ c ∧ c ≤ 57 then
    some (l.foldl (fun a c => a * 10 + (c - 48)) 0)
  else none

/-- Model of `ipv4_port_to_base64(ipv4, port)`: split the address on `'.'`, parse
the first four components with `int`, pack them and the big-endian port
into 6 bytes (`struct.pack` raises — `none` — unless every octet is < 256
and the port fits 16 bits), and base64-encode. -/
def ipv4_port_to_base64 (ipv4 : List ℕ) (port : ℕ) : Option (List ℕ) :=
  let octets := List.splitOn 46 ipv4
  match (octets.get? 0).bind parseDec, (octets.get? 1).bind parseDec,
      (octets.get? 2).bind parseDec, (octets.get? 3).bind parseDec with
  | some a, some b, some c, some d =>
    if a < 256 ∧ b < 256 ∧ c < 256 ∧ d < 256 ∧ port < 65536 then
      some (pyB64Encode [a, b, c, d, port / 256, port % 256])
    else none
  | _, _, _, _ => none

/-- Model of `base64_to_ipv4_port(token)`: base64-decode (exceptions
propagate), unpack the first 4 bytes as octets (`struct.unpack('!BBBB')`
raises unless it gets exactly 4 bytes), join their decimal forms with dots,
and unpack the remaining bytes as a big-endian 16-bit port
(`struct.unpack('!H')` raises unless exactly 2 bytes remain). -/
def base64_to_ipv4_port (tok : List ℕ) : Except PyError (List ℕ × ℕ) :=
  match pyB64Decode tok with
  | .error e => .error e
  | .ok bytes =>
    let ip_bytes := bytes.take 4
    if ip_bytes.length ≠ 4 then .error .structError
    else
      let ipv4 := List.intercalate [46] (ip_bytes.map decRepr)
      let port_bytes := bytes.drop 4
      if port_bytes.length ≠ 2 then .error .structError
      else .ok (ipv4, port_bytes.getD 0 0 * 256 + port_bytes.getD 1 0)

/-- A valid dotted-quad IPv4 string: four canonical decimal components,
each below 256, joined by dots. -/
def validIPv4 (ip : List ℕ) : Prop :=
  ∃ a b c d : ℕ, a < 256 ∧ b < 256 ∧ c < 256 ∧ d < 256 ∧
    ip = List.intercalate [46] [decRepr a, decRepr b, decRepr c, decRepr d]

/-- The code points of `"1.2.3.4"`. -/
def ipW : List ℕ := [49, 46, 50, 46, 51, 46, 52]

/-! ## Concrete states for witnesses and counterexamples -/

/-- A concrete, fully evaluable game state: empty board, T piece falling,
initial counters (as right after `start`). -/
def stateW : GState :=
  { board := List.replicate 220 0
    cur_x := 6
    cur_y := 20
    current_piece := Shape.set_shape Tetrominoe.TShape
    next_piece := Shape.set_shape Tetrominoe.ZShape
    hold_piece := Shape.set_shape Tetrominoe.NoShape
    hold_locked := false
    is_started := true
    is_paused := false
    is_waiting_after_line := false
    is_landed := false
    num_lines_removed := 0
    lines_to_goal := 0
    goal := 10
    num_goals_reached := 0
    speed := 300
    timerActive := true
    timer_interval := 300
    finalizeTimerActive := false
    bag := [1, 2, 3]
    refills := 0
    messages := [] }

/-- A fixed randomness stream for witnesses: every refill yields the
identity ordering of the 7 shapes. -/
def shufflesW : ℕ → List ℕ := fun _ => [1, 2, 3, 4, 5, 6, 7]

/-- A state about to lock while completing the bottom row: the Square piece
sits over columns 6–7 of rows 0–1, the rest of row 0 is already filled, and
`hold_locked` is set (a hold occurred during this piece's fall). -/
def stateHold : GState :=
  { stateW with
    board := [1, 1, 1, 1, 1, 1, 0, 0, 1, 1] ++ List.replicate 210 0
    current_piece := Shape.set_shape Tetrominoe.SquareShape
    cur_x := 6
    cur_y := 1
    hold_locked := true
    hold_piece := Shape.set_shape Tetrominoe.LShape }

/-- A state whose next spawn is blocked: cell `(6, 21)` — part of the T
piece's spawn cells — is already occupied. -/
def stateGO : GState :=
  { stateW with
    board := List.replicate 216 0 ++ [1, 0, 0, 0]
    next_piece := Shape.set_shape Tetrominoe.TShape }

/-! ## Theorems -/

theorem Shape.ext_iff' (a b : Shape) :
    a = b ↔ a.piece_shape = b.piece_shape ∧ a.coords = b.coords := by
  cases a; cases b; simp

/-- C10: rotating right then left restores every shape; the Square shape is
fixed by both rotations. -/
theorem C10_rotate_left_rotate_right (s : Shape) :
    s.rotate_right.rotate_left = s ∧
      (s.piece_shape = Tetrominoe.SquareShape →
        s.rotate_right = s ∧ s.rotate_left = s) := by
  constructor
  · by_cases h : s.piece_shape = Tetrominoe.SquareShape
    · simp [Shape.rotate_right, Shape.rotate_left, h]
    · simp only [Shape.rotate_right, Shape.rotate_left, h, if_false]
      rw [Shape.ext_iff']
      refine ⟨rfl, funext fun i => ?_⟩
      simp
  · intro h
    simp [Shape.rotate_right, Shape.rotate_left, h]

theorem cellFree_iff (s : GState) (p : Shape) (nx ny : ℤ) (i : Fin 4) :
    cellFree s p nx ny i = true ↔
      0 ≤ nx + p.x i ∧ nx + p.x i < 10 ∧ 0 ≤ ny - p.y i ∧ ny - p.y i < 22 ∧
        shape_atZ s.board (nx + p.x i) (ny - p.y i) = Tetrominoe.NoShape := by
  simp [cellFree, and_assoc]

theorem try_move_fst_iff (s : GState) (p : Shape) (nx ny : ℤ) :
    (try_move s p nx ny).1 = true ↔ ∀ i : Fin 4, cellFree s p nx ny i = true := by
  unfold try_move
  by_cases h : (cellFree s p nx ny 0 && cellFree s p nx ny 1 &&
      cellFree s p nx ny 2 && cellFree s p nx ny 3) = true
  · rw [if_pos h]
    simp only [Bool.and_eq_true] at h
    refine iff_of_true rfl fun i => ?_
    fin_cases i <;> tauto
  · rw [if_neg h]
    refine iff_of_false (by simp) fun hall => ?_
    exact h (by simp only [Bool.and_eq_true]; exact ⟨⟨⟨hall 0, hall 1⟩, hall 2⟩, hall 3⟩)

theorem try_move_of_fail (s : GState) (p : Shape) (nx ny : ℤ)
    (h : (try_move s p nx ny).1 = false) : (try_move s p nx ny).2 = s := by
  unfold try_move at *
  by_cases hc : (cellFree s p nx ny 0 && cellFree s p nx ny 1 &&
      cellFree s p nx ny 2 && cellFree s p nx ny 3) = true
  · rw [if_pos hc] at h; simp at h
  · rw [if_neg hc]

theorem try_move_of_ok (s : GState) (p : Shape) (nx ny : ℤ)
    (h : (try_move s p nx ny).1 = true) :
    (try_move s p nx ny).2 =
      { s with current_piece := p, cur_x := nx, cur_y := ny } := by
  unfold try_move at *
  by_cases hc : (cellFree s p nx ny 0 && cellFree s p nx ny 1 &&
      cellFree s p nx ny 2 && cellFree s p nx ny 3) = true
  · rw [if_pos hc]
  · rw [if_neg hc] at h; simp at h

/-- C1: `try_move` succeeds exactly when all 4 offset cells are in bounds
and unoccupied; on failure the whole state (grid, piece, position) is
untouched; on success the position becomes exactly `(new_x, new_y)`, the
current piece becomes the passed piece, and the grid cells are unchanged. -/
theorem C1_try_move_frame (s : GState) (p : Shape) (new_x new_y : ℤ) :
    ((try_move s p new_x new_y).1 = true ↔
      ∀ i : Fin 4, 0 ≤ new_x + p.x i ∧ new_x + p.x i < 10 ∧
        0 ≤ new_y - p.y i ∧ new_y - p.y i < 22 ∧
        shape_atZ s.board (new_x + p.x i) (new_y - p.y i) = Tetrominoe.NoShape) ∧
    ((try_move s p new_x new_y).1 = false → (try_move s p new_x new_y).2 = s) ∧
    ((try_move s p new_x new_y).1 = true →
      (try_move s p new_x new_y).2.cur_x = new_x ∧
      (try_move s p new_x new_y).2.cur_y = new_y ∧
      (try_move s p new_x new_y).2.current_piece = p ∧
      (try_move s p new_x new_y).2.board = s.board) := by
  refine ⟨?_, try_move_of_fail s p new_x new_y, fun h => ?_⟩
  · rw [try_move_fst_iff]
    exact forall_congr' fun i => cellFree_iff s p new_x new_y i
  · rw [try_move_of_ok s p new_x new_y h]
    exact ⟨rfl, rfl, rfl, rfl⟩

/-- Witness for C1: a successful move of the T piece to `(5, 19)` on the
empty board commits exactly that position and piece. -/
theorem C1_try_move_frame_witness :
    (try_move stateW (Shape.set_shape Tetrominoe.TShape) 5 19).2.cur_x = 5 ∧
    (try_move stateW (Shape.set_shape Tetrominoe.TShape) 5 19).2.cur_y = 19 ∧
    (try_move stateW (Shape.set_shape Tetrominoe.TShape) 5 19).2.current_piece =
      Shape.set_shape Tetrominoe.TShape ∧
    (try_move stateW (Shape.set_shape Tetrominoe.TShape) 5 19).2.board =
      stateW.board :=
  (C1_try_move_frame stateW (Shape.set_shape Tetrominoe.TShape) 5 19).2.2
    (by decide)

theorem try_rotate_right_spec (s : GState) :
    try_rotate_right s =
      (if canRotAt s 0 then
        (try_move s s.current_piece.rotate_right s.cur_x s.cur_y).2
      else if canRotAt s 1 then
        (try_move s s.current_piece.rotate_right (s.cur_x - 1) s.cur_y).2
      else if canRotAt s 2 then
        (try_move s s.current_piece.rotate_right (s.cur_x + 1) s.cur_y).2
      else if canRotAt s 3 then
        (try_move s s.current_piece.rotate_right s.cur_x (s.cur_y + 1)).2
      else (try_move s s.current_piece.rotate_right s.cur_x (s.cur_y - 1)).2) := by
  simp only [try_rotate_right]
  by_cases h0 : (try_move s s.current_piece.rotate_right s.cur_x s.cur_y).1 = true
  · simp [canRotAt, rotAttempt, h0]
  · have h0' : (try_move s s.current_piece.rotate_right s.cur_x s.cur_y).1 = false :=
      by simpa using h0
    have e0 := try_move_of_fail _ _ _ _ h0'
    rw [e0]
    simp only [canRotAt, rotAttempt, h0', Bool.false_eq_true, if_false]
    by_cases h1 :
        (try_move s s.current_piece.rotate_right (s.cur_x - 1) s.cur_y).1 = true
    · simp [h1]
    · have h1' :
          (try_move s s.current_piece.rotate_right (s.cur_x - 1) s.cur_y).1 = false :=
        by simpa using h1
      have e1 := try_move_of_fail _ _ _ _ h1'
      rw [e1]
      simp only [h1', Bool.false_eq_true, if_false]
      by_cases h2 :
          (try_move s s.current_piece.rotate_right (s.cur_x + 1) s.cur_y).1 = true
      · simp [h2]
      · have h2' :
            (try_move s s.current_piece.rotate_right (s.cur_x + 1) s.cur_y).1 =
              false := by simpa using h2
        have e2 := try_move_of_fail _ _ _ _ h2'
        rw [e2]
        simp only [h2', Bool.false_eq_true, if_false]
        by_cases h3 :
            (try_move s s.current_piece.rotate_right s.cur_x (s.cur_y + 1)).1 = true
        · simp [h3]
        · have h3' :
              (try_move s s.current_piece.rotate_right s.cur_x (s.cur_y + 1)).1 =
                false := by simpa using h3
          have e3 := try_move_of_fail _ _ _ _ h3'
          rw [e3]

/-- C3: `try_rotate_right` rotates the current piece 90° clockwise
(`(x, y) ↦ (-y, x)`, identity for the Square piece) and tries the five
candidate positions in place / left / right / up / down in that order; the
first success determines the final position, total failure changes nothing,
and in particular when the in-place and left attempts fail but the `+1`
x-shift succeeds the piece ends at `(x + 1, y)`. -/
theorem C3_try_rotate_right (s : GState) :
    (s.current_piece.piece_shape ≠ Tetrominoe.SquareShape →
      ∀ i : Fin 4, s.current_piece.rotate_right.coords i =
        (-(s.current_piece.coords i).2, (s.current_piece.coords i).1)) ∧
    (s.current_piece.piece_shape = Tetrominoe.SquareShape →
      s.current_piece.rotate_right = s.current_piece) ∧
    (∀ j : Fin 5, canRotAt s j = true → (∀ i : Fin 5, i < j → canRotAt s i = false) →
      try_rotate_right s =
        { s with
          current_piece := s.current_piece.rotate_right
          cur_x := (rotAttempt s j).1
          cur_y := (rotAttempt s j).2 }) ∧
    ((∀ j : Fin 5, canRotAt s j = false) → try_rotate_right s = s) ∧
    (canRotAt s 0 = false → canRotAt s 1 = false → canRotAt s 2 = true →
      (try_rotate_right s).cur_x = s.cur_x + 1 ∧
        (try_rotate_right s).cur_y = s.cur_y) := by
  have hspec := try_rotate_right_spec s
  refine ⟨fun hne i => ?_, fun hsq => ?_, fun j hj hlt => ?_, fun hall => ?_,
    fun f0 f1 t2 => ?_⟩
  · simp [Shape.rotate_right, hne]
  · simp [Shape.rotate_right, hsq]
  · fin_cases j
    · rw [hspec, if_pos (show canRotAt s 0 = true from hj)]
      exact try_move_of_ok _ _ _ _ hj
    · have f0 := hlt 0 (by decide)
      rw [hspec, f0, if_neg (by simp), if_pos (show canRotAt s 1 = true from hj)]
      exact try_move_of_ok _ _ _ _ hj
    · have f0 := hlt 0 (by decide)
      have f1 := hlt 1 (by decide)
      rw [hspec, f0, f1, if_neg (by simp), if_neg (by simp),
        if_pos (show canRotAt s 2 = true from hj)]
      exact try_move_of_ok _ _ _ _ hj
    · have f0 := hlt 0 (by decide)
      have f1 := hlt 1 (by decide)
      have f2 := hlt 2 (by decide)
      rw [hspec, f0, f1, f2, if_neg (by simp), if_neg (by simp), if_neg (by simp),
        if_pos (show canRotAt s 3 = true from hj)]
      exact try_move_of_ok _ _ _ _ hj
    · have f0 := hlt 0 (by decide)
      have f1 := hlt 1 (by decide)
      have f2 := hlt 2 (by decide)
      have f3 := hlt 3 (by decide)
      rw [hspec, f0, f1, f2, f3, if_neg (by simp), if_neg (by simp),
        if_neg (by simp), if_neg (by simp)]
      exact try_move_of_ok _ _ _ _ hj
  · rw [hspec, hall 0, hall 1, hall 2, hall 3, if_neg (by simp), if_neg (by simp),
      if_neg (by simp), if_neg (by simp)]
    exact try_move_of_fail _ _ _ _ (hall 4)
  · rw [hspec, f0, f1, if_neg (by simp), if_neg (by simp), if_pos t2,
      try_move_of_ok s s.current_piece.rotate_right (s.cur_x + 1) s.cur_y t2]
    exact ⟨rfl, rfl⟩

/-- Witness for C3: the T piece against the left wall on the empty board
fails to rotate in place and at `x - 1`, succeeds at `x + 1`, and so ends at
`(x + 1, y)`. -/
theorem C3_try_rotate_right_witness :
    (try_rotate_right { stateW with cur_x := 0, cur_y := 10 }).cur_x =
        ({ stateW with cur_x := 0, cur_y := 10 } : GState).cur_x + 1 ∧
      (try_rotate_right { stateW with cur_x := 0, cur_y := 10 }).cur_y =
        ({ stateW with cur_x := 0, cur_y := 10 } : GState).cur_y :=
  (C3_try_rotate_right { stateW with cur_x := 0, cur_y := 10 }).2.2.2.2
    (by decide) (by decide) (by decide)

theorem set_shape_at_length (b : List ℕ) (x y v : ℕ) :
    (set_shape_at b x y v).length = b.length := by
  simp [set_shape_at]

theorem shape_at_set (b : List ℕ) (x y x' y' v : ℕ) (hx : x < 10) (hy : y < 22)
    (hx' : x' < 10) (hy' : y' < 22) (hlen : b.length = 220) :
    shape_at (set_shape_at b x' y' v) x y =
      if x = x' ∧ y = y' then v else shape_at b x y := by
  by_cases h : x = x' ∧ y = y'
  · obtain ⟨rfl, rfl⟩ := h
    rw [if_pos ⟨rfl, rfl⟩]
    unfold shape_at set_shape_at
    rw [List.getD_eq_getElem?_getD, List.getElem?_set_eq_of_lt v (by omega)]
    rfl
  · rw [if_neg h]
    unfold shape_at set_shape_at
    rw [List.getD_eq_getElem?_getD, List.getElem?_set_ne (by omega),
      ← List.getD_eq_getElem?_getD]

theorem copyCols_length (b : List ℕ) (k : ℕ) (L : List ℕ) :
    (L.foldl (fun b' l => set_shape_at b' l k (shape_at b' l (k + 1))) b).length =
      b.length := by
  induction L generalizing b with
  | nil => rfl
  | cons c L ih => rw [List.foldl_cons, ih, set_shape_at_length]

theorem copyCols_get (b : List ℕ) (k : ℕ) (L : List ℕ) (hL : ∀ c ∈ L, c < 10)
    (hk : k + 1 < 22) (hlen : b.length = 220) (x y : ℕ) (hx : x < 10) (hy : y < 22) :
    shape_at (L.foldl (fun b' l => set_shape_at b' l k (shape_at b' l (k + 1))) b) x y =
      if y = k ∧ x ∈ L then shape_at b x (k + 1) else shape_at b x y := by
  induction L generalizing b with
  | nil => simp
  | cons c L ih =>
    rw [List.foldl_cons]
    have hc : c < 10 := hL c (by simp)
    have hL' : ∀ d ∈ L, d < 10 := fun d hd => hL d (by simp [hd])
    have hlen1 : (set_shape_at b c k (shape_at b c (k + 1))).length = 220 := by
      rw [set_shape_at_length, hlen]
    rw [ih _ hL' hlen1]
    have e1 : shape_at (set_shape_at b c k (shape_at b c (k + 1))) x (k + 1) =
        shape_at b x (k + 1) := by
      rw [shape_at_set b x (k + 1) c k _ hx hk hc (by omega) hlen,
        if_neg (by omega)]
    have e2 : shape_at (set_shape_at b c k (shape_at b c (k + 1))) x y =
        if x = c ∧ y = k then shape_at b x (k + 1) else shape_at b x y := by
      rw [shape_at_set b x y c k _ hx hy hc (by omega) hlen]
      by_cases hxc : x = c ∧ y = k
      · obtain ⟨rfl, rfl⟩ := hxc
        simp
      · rw [if_neg hxc, if_neg hxc]
    rw [e1, e2]
    by_cases h1 : y = k
    · by_cases h2 : x ∈ L
      · simp [h1, h2]
      · by_cases h3 : x = c
        · simp [h1, h2, h3]
        · simp [h1, h2, h3]
    · simp [h1]

theorem copyRowDown_length (b : List ℕ) (k : ℕ) :
    (copyRowDown b k).length = b.length := copyCols_length b k _

theorem copyRowDown_get (b : List ℕ) (k : ℕ) (hk : k + 1 < 22)
    (hlen : b.length = 220) (x y : ℕ) (hx : x < 10) (hy : y < 22) :
    shape_at (copyRowDown b k) x y =
      if y = k then shape_at b x (k + 1) else shape_at b x y := by
  unfold copyRowDown
  rw [copyCols_get b k _ (fun c hc => List.mem_range.mp hc) hk hlen x y hx hy]
  by_cases h : y = k
  · simp [h, List.mem_range.mpr hx]
  · simp [h]

theorem zeroCols_length (b : List ℕ) (L : List ℕ) :
    (L.foldl (fun b' l => set_shape_at b' l 21 Tetrominoe.NoShape) b).length =
      b.length := by
  induction L generalizing b with
  | nil => rfl
  | cons c L ih => rw [List.foldl_cons, ih, set_shape_at_length]

theorem zeroCols_get (b : List ℕ) (L : List ℕ) (hL : ∀ c ∈ L, c < 10)
    (hlen : b.length = 220) (x y : ℕ) (hx : x < 10) (hy : y < 22) :
    shape_at (L.foldl (fun b' l => set_shape_at b' l 21 Tetrominoe.NoShape) b) x y =
      if y = 21 ∧ x ∈ L then Tetrominoe.NoShape else shape_at b x y := by
  induction L generalizing b with
  | nil => simp
  | cons c L ih =>
    rw [List.foldl_cons]
    have hc : c < 10 := hL c (by simp)
    have hL' : ∀ d ∈ L, d < 10 := fun d hd => hL d (by simp [hd])
    have hlen1 : (set_shape_at b c 21 Tetrominoe.NoShape).length = 220 := by
      rw [set_shape_at_length, hlen]
    rw [ih _ hL' hlen1]
    have e2 : shape_at (set_shape_at b c 21 Tetrominoe.NoShape) x y =
        if x = c ∧ y = 21 then Tetrominoe.NoShape else shape_at b x y := by
      rw [shape_at_set b x y c 21 _ hx hy hc (by omega) hlen]
    rw [e2]
    by_cases h1 : y = 21
    · by_cases h2 : x ∈ L
      · simp [h1, h2]
      · by_cases h3 : x = c
        · simp [h1, h2, h3]
        · simp [h1, h2, h3]
    · simp [h1]

theorem shiftRows_length (n : ℕ) : ∀ (m : ℕ) (b : List ℕ),
    ((List.range' m n).foldl copyRowDown b).length = b.length := by
  induction n with
  | zero => intro m b; rfl
  | succ n ih =>
    intro m b
    rw [List.range'_succ m n 1, List.foldl_cons, ih, copyRowDown_length]

theorem shiftRows_get (n : ℕ) : ∀ (m : ℕ) (b : List ℕ), m + n ≤ 21 →
    b.length = 220 → ∀ x y, x < 10 → y < 22 →
    shape_at ((List.range' m n).foldl copyRowDown b) x y =
      if m ≤ y ∧ y < m + n then shape_at b x (y + 1) else shape_at b x y := by
  induction n with
  | zero =>
    intro m b _ _ x y _ _
    rw [if_neg (by omega)]
    rfl
  | succ n ih =>
    intro m b hmn hlen x y hx hy
    rw [List.range'_succ m n 1, List.foldl_cons]
    have hlen1 : (copyRowDown b m).length = 220 := by rw [copyRowDown_length, hlen]
    rw [ih (m + 1) (copyRowDown b m) (by omega) hlen1 x y hx hy]
    have hk : m + 1 < 22 := by omega
    by_cases h1 : m + 1 ≤ y ∧ y < m + 1 + n
    · rw [if_pos h1, if_pos (by omega),
        copyRowDown_get b m hk hlen x (y + 1) hx (by omega),
        if_neg (by omega)]
    · rw [if_neg h1, copyRowDown_get b m hk hlen x y hx hy]
      by_cases h2 : y = m
      · rw [if_pos h2, if_pos (by omega), h2]
      · rw [if_neg h2, if_neg (by omega)]

theorem removeRow_length (b : List ℕ) (m : ℕ) :
    (removeRow b m).length = b.length := by
  unfold removeRow zeroTopRow
  rw [zeroCols_length, shiftRows_length]

theorem removeRow_get (b : List ℕ) (m : ℕ) (hm : m ≤ 21) (hlen : b.length = 220)
    (x y : ℕ) (hx : x < 10) (hy : y < 22) :
    shape_at (removeRow b m) x y =
      if y = 21 then Tetrominoe.NoShape
      else if m ≤ y then shape_at b x (y + 1) else shape_at b x y := by
  unfold removeRow zeroTopRow
  have hlen1 : ((List.range' m (21 - m)).foldl copyRowDown b).length = 220 := by
    rw [shiftRows_length, hlen]
  rw [zeroCols_get _ _ (fun c hc => List.mem_range.mp hc) hlen1 x y hx hy]
  by_cases h1 : y = 21
  · simp [h1, List.mem_range.mpr hx]
  · rw [if_neg (by simp [h1]), if_neg h1,
      shiftRows_get (21 - m) m b (by omega) hlen x y hx hy]
    by_cases h2 : m ≤ y
    · rw [if_pos (by omega), if_pos h2]
    · rw [if_neg (by omega), if_neg h2]

theorem filter_range_eq_single (p : ℕ → Bool) (n R : ℕ) (hR : R < n)
    (hpR : p R = true) (h : ∀ i, i < n → i ≠ R → p i = false) :
    (List.range n).filter p = [R] := by
  induction n with
  | zero => omega
  | succ n ih =>
    rw [List.range_succ, List.filter_append]
    by_cases hRn : R = n
    · subst hRn
      have hnil : (List.range R).filter p = [] := by
        rw [List.filter_eq_nil_iff]
        intro a ha
        have han : a < R := List.mem_range.mp ha
        rw [h a (by omega) (by omega)]
        simp
      rw [hnil]
      simp [hpR]
    · have hr : (List.range n).filter p = [R] :=
        ih (by omega) fun i hi hne => h i (by omega) hne
      have hpn : p n = false := h n (by omega) fun e => hRn e.symm
      rw [hr]
      simp [hpn]

theorem rowsToRemove_single (b : List ℕ) (R : ℕ) (hR : R < 22)
    (hfull : rowFull b R = true)
    (hothers : ∀ i, i < 22 → i ≠ R → rowFull b i = false) :
    rowsToRemove b = [R] := by
  unfold rowsToRemove
  rw [filter_range_eq_single _ 22 R hR hfull hothers]
  rfl

/-- C2: when exactly one row `R` is full, `remove_full_lines` removes
exactly row `R` (rows below are untouched, rows above shift down one, the
top row is zero-filled) and the total lines-cleared counter increases by
exactly 1. -/
theorem C2_remove_single_full_line (s : GState) (R : ℕ)
    (hlen : s.board.length = 220) (hR : R < 22)
    (hfull : rowFull s.board R = true)
    (hothers : ∀ i, i < 22 → i ≠ R → rowFull s.board i = false) :
    (∀ x y, x < 10 → y < 22 →
      shape_at (remove_full_lines s).board x y =
        if y = 21 then Tetrominoe.NoShape
        else if R ≤ y then shape_at s.board x (y + 1)
        else shape_at s.board x y) ∧
    (remove_full_lines s).num_lines_removed = s.num_lines_removed + 1 := by
  have hrows := rowsToRemove_single s.board R hR hfull hothers
  have hboard : (remove_full_lines s).board = removeRow s.board R := by
    simp only [remove_full_lines, hrows]
    rw [if_pos (by simp)]
    split_ifs <;> simp
  have hcount : (remove_full_lines s).num_lines_removed =
      s.num_lines_removed + 1 := by
    simp only [remove_full_lines, hrows]
    rw [if_pos (by simp)]
    split_ifs <;> simp
  refine ⟨fun x y hx hy => ?_, hcount⟩
  rw [hboard, removeRow_get s.board R (by omega) hlen x y hx hy]

set_option maxRecDepth 100000 in
/-- Witness for C2: a board whose bottom row is the only full row. -/
theorem C2_remove_single_full_line_witness :
    (remove_full_lines
        { stateW with board := List.replicate 10 1 ++ List.replicate 210 0 }
      ).num_lines_removed =
      ({ stateW with board := List.replicate 10 1 ++ List.replicate 210 0 } :
        GState).num_lines_removed + 1 ∧
    shape_at (remove_full_lines
        { stateW with board := List.replicate 10 1 ++ List.replicate 210 0 }
      ).board 3 0 =
      shape_at ({ stateW with
        board := List.replicate 10 1 ++ List.replicate 210 0 } : GState).board 3 1 := by
  have h := C2_remove_single_full_line
    { stateW with board := List.replicate 10 1 ++ List.replicate 210 0 } 0
    (by decide) (by decide) (by decide) (by decide)
  refine ⟨h.2, ?_⟩
  rw [h.1 3 0 (by decide) (by decide)]
  simp

/-- C4: with `goal = 10` and no goals reached, a clear that reaches the goal
sets `goal := 15`, `num_goals_reached := 1`, resets `lines_to_goal` and
multiplies the speed (and hence the tick period) by 3/4; with `goal = 15`
and one goal reached, reaching it again sets `goal := 20` (an increase of
`5 * 1`) and `num_goals_reached := 2`. -/
theorem C4_leveling (s : GState) :
    (s.goal = 10 → s.num_goals_reached = 0 → rowsToRemove s.board ≠ [] →
      10 ≤ s.lines_to_goal + (rowsToRemove s.board).length →
      (remove_full_lines s).goal = 15 ∧
      (remove_full_lines s).num_goals_reached = 1 ∧
      (remove_full_lines s).lines_to_goal = 0 ∧
      (remove_full_lines s).speed = s.speed * 3 / 4 ∧
      (remove_full_lines s).timer_interval = pyInt (s.speed * 3 / 4)) ∧
    (s.goal = 15 → s.num_goals_reached = 1 → rowsToRemove s.board ≠ [] →
      15 ≤ s.lines_to_goal + (rowsToRemove s.board).length →
      (remove_full_lines s).goal = 20 ∧
      (remove_full_lines s).num_goals_reached = 2) := by
  constructor
  · intro hg hn hne htr
    have h0 : 0 < (rowsToRemove s.board).length := List.length_pos.mpr hne
    simp only [remove_full_lines]
    rw [if_pos h0, if_pos (by simpa [hg] using htr)]
    refine ⟨by simp [hn, hg], by simp [hn], by simp, ?_, ?_⟩
    · simp only
      ring
    · simp only
      congr 1
      ring
  · intro hg hn hne htr
    have h0 : 0 < (rowsToRemove s.board).length := List.length_pos.mpr hne
    simp only [remove_full_lines]
    rw [if_pos h0, if_pos (by simpa [hg] using htr)]
    exact ⟨by simp [hn, hg], by simp [hn]⟩

set_option maxRecDepth 100000 in
/-- Witness for C4: one full bottom row with `lines_to_goal = 9` triggers
the first leveling step. -/
theorem C4_leveling_witness :
    (remove_full_lines
        { stateW with
          board := List.replicate 10 1 ++ List.replicate 210 0
          lines_to_goal := 9 }).goal = 15 ∧
    (remove_full_lines
        { stateW with
          board := List.replicate 10 1 ++ List.replicate 210 0
          lines_to_goal := 9 }).num_goals_reached = 1 ∧
    (remove_full_lines
        { stateW with
          board := List.replicate 10 1 ++ List.replicate 210 0
          lines_to_goal := 9 }).lines_to_goal = 0 ∧
    (remove_full_lines
        { stateW with
          board := List.replicate 10 1 ++ List.replicate 210 0
          lines_to_goal := 9 }).speed =
      ({ stateW with
          board := List.replicate 10 1 ++ List.replicate 210 0
          lines_to_goal := 9 } : GState).speed * 3 / 4 ∧
    (remove_full_lines
        { stateW with
          board := List.replicate 10 1 ++ List.replicate 210 0
          lines_to_goal := 9 }).timer_interval =
      pyInt (({ stateW with
          board := List.replicate 10 1 ++ List.replicate 210 0
          lines_to_goal := 9 } : GState).speed * 3 / 4) :=
  (C4_leveling
      { stateW with
        board := List.replicate 10 1 ++ List.replicate 210 0
        lines_to_goal := 9 }).1 rfl rfl (by decide) (by decide)

theorem remove_full_lines_of_nil (s : GState) (h : rowsToRemove s.board = []) :
    remove_full_lines s = s := by
  simp only [remove_full_lines, h]
  simp

theorem remove_full_lines_of_pos (s : GState) (h : rowsToRemove s.board ≠ []) :
    (remove_full_lines s).is_waiting_after_line = true ∧
      (remove_full_lines s).hold_locked = s.hold_locked := by
  simp only [remove_full_lines]
  rw [if_pos (List.length_pos.mpr h)]
  split_ifs <;> exact ⟨rfl, rfl⟩

set_option maxRecDepth 100000 in
/-- Counterexample for C5: at `stateHold` (a hold happened, `hold_locked`
is set) the piece locks and clears the bottom row, yet `hold_locked` is
still `true` afterwards — the claim says every natural lock, including
line-clearing ones, clears it. -/
theorem C5_hold_unlock_counterexample :
    stateHold.hold_locked = true ∧
    (finalize_piece shufflesW stateHold).num_lines_removed =
      stateHold.num_lines_removed + 1 ∧
    (finalize_piece shufflesW stateHold).hold_locked = true := by
  refine ⟨rfl, ?_, ?_⟩ <;> decide

/-- C5 (amended): a second hold without an intervening lock is a complete
no-op; any hold sets `hold_locked`; a lock that clears no lines resets
`hold_locked` to `false`; but a lock that clears one or more lines leaves
`hold_locked` unchanged (it is only cleared at the next lock that clears no
lines). -/
theorem C5_hold_amended :
    (∀ (sh : ℕ → List ℕ) (s : GState), s.hold_locked = true →
      hold_current_piece sh s = s) ∧
    (∀ (sh : ℕ → List ℕ) (s : GState), s.hold_locked = false →
      (hold_current_piece sh s).hold_locked = true) ∧
    (∀ (sh : ℕ → List ℕ) (s : GState), s.is_waiting_after_line = false →
      rowsToRemove (writeCurrentPiece s).board = [] →
      (finalize_piece sh s).hold_locked = false) ∧
    (∀ (sh : ℕ → List ℕ) (s : GState),
      rowsToRemove (writeCurrentPiece s).board ≠ [] →
      (finalize_piece sh s).hold_locked = s.hold_locked) := by
  refine ⟨fun sh s h => ?_, fun sh s h => ?_, fun sh s hw hrows => ?_,
    fun sh s hrows => ?_⟩
  · simp [hold_current_piece, h]
  · simp only [hold_current_piece, h]
    split_ifs <;> rfl
  · simp only [finalize_piece]
    rw [remove_full_lines_of_nil
      (writeCurrentPiece { s with finalizeTimerActive := false }) hrows]
    simp [writeCurrentPiece, hw]
  · simp only [finalize_piece]
    have h1 := remove_full_lines_of_pos
      (writeCurrentPiece { s with finalizeTimerActive := false }) hrows
    rw [if_neg (by simp [h1.1])]
    exact h1.2

/-- Witness for C5 (amended): with `hold_locked` already set, a second hold
changes nothing at all. -/
theorem C5_hold_amended_witness :
    hold_current_piece shufflesW { stateW with hold_locked := true } =
      { stateW with hold_locked := true } :=
  C5_hold_amended.1 shufflesW { stateW with hold_locked := true } rfl

theorem keyPressEvent_of_stopped (sh : ℕ → List ℕ) (k : Key) (s : GState)
    (h : s.is_started = false) : keyPressEvent sh k s = s := by
  simp [keyPressEvent, h]

theorem tick_of_stopped (sh : ℕ → List ℕ) (s : GState)
    (h : s.timerActive = false) : tick sh s = s := by
  simp [tick, h]

/-- C6: when one of the spawn cells (at horizontal center, row
`height - 1 + min_y`) is already occupied, `new_piece` blanks the piece,
stops the timers, ends the session, and emits exactly one "Game over"
notification; afterwards every gravity tick and every key input is a
no-op. -/
theorem C6_spawn_collision_game_over (sh : ℕ → List ℕ) (s : GState)
    (hocc : ∃ i : Fin 4,
      shape_atZ s.board
        (6 + (Shape.set_shape s.next_piece.piece_shape).x i)
        (21 + (Shape.set_shape s.next_piece.piece_shape).min_y -
          (Shape.set_shape s.next_piece.piece_shape).y i) ≠ Tetrominoe.NoShape) :
    (new_piece sh s).is_started = false ∧
    (new_piece sh s).timerActive = false ∧
    (new_piece sh s).current_piece.piece_shape = Tetrominoe.NoShape ∧
    (new_piece sh s).messages = s.messages ++ ["Game over"] ∧
    (∀ k : Key, keyPressEvent sh k (new_piece sh s) = new_piece sh s) ∧
    tick sh (new_piece sh s) = new_piece sh s := by
  obtain ⟨i, hi⟩ := hocc
  have hfail : ∀ s2 : GState, s2.board = s.board →
      (try_move s2 (Shape.set_shape s.next_piece.piece_shape) 6
        (21 + (Shape.set_shape s.next_piece.piece_shape).min_y)).1 = false := by
    intro s2 hb
    rcases h' : (try_move s2 (Shape.set_shape s.next_piece.piece_shape) 6
        (21 + (Shape.set_shape s.next_piece.piece_shape).min_y)).1 with _ | _
    · rfl
    · exfalso
      have hall := (try_move_fst_iff s2 (Shape.set_shape s.next_piece.piece_shape) 6
        (21 + (Shape.set_shape s.next_piece.piece_shape).min_y)).mp h'
      have hcell := (cellFree_iff s2 (Shape.set_shape s.next_piece.piece_shape) 6
        (21 + (Shape.set_shape s.next_piece.piece_shape).min_y) i).mp (hall i)
      rw [hb] at hcell
      exact hi hcell.2.2.2.2
  have hmain : (new_piece sh s).is_started = false ∧
      (new_piece sh s).timerActive = false ∧
      (new_piece sh s).current_piece.piece_shape = Tetrominoe.NoShape ∧
      (new_piece sh s).messages = s.messages ++ ["Game over"] := by
    simp only [new_piece, get_next_shape, get_next_shape_core]
    rw [try_move_of_fail, hfail]
    · simp [Shape.set_shape]
    · rfl
    · exact hfail _ rfl
  exact ⟨hmain.1, hmain.2.1, hmain.2.2.1, hmain.2.2.2,
    fun k => keyPressEvent_of_stopped sh k _ hmain.1,
    tick_of_stopped sh _ hmain.2.1⟩

/-- Witness for C6: a board occupying cell `(6, 21)` blocks the T spawn and
ends the game with the single notification. -/
theorem C6_spawn_collision_game_over_witness :
    (new_piece shufflesW stateGO).is_started = false ∧
    (new_piece shufflesW stateGO).messages = stateGO.messages ++ ["Game over"] :=
  ⟨(C6_spawn_collision_game_over shufflesW stateGO ⟨1, by decide⟩).1,
    (C6_spawn_collision_game_over shufflesW stateGO ⟨1, by decide⟩).2.2.2.1⟩

theorem drawN_pop_all (sh : ℕ → List ℕ) (l : List ℕ) (r : ℕ) :
    drawN sh (l, r) l.length = (l.reverse, ([], r)) := by
  induction l using List.reverseRecOn with
  | nil => simp [drawN]
  | append_singleton xs x ih =>
    rw [List.length_append]
    simp only [List.length_cons, List.length_nil]
    show drawN sh (xs ++ [x], r) (xs.length + 1) = _
    simp only [drawN, get_next_shape_core]
    have hne : (xs ++ [x]).isEmpty = false := by simp
    rw [hne]
    simp only [Bool.false_eq_true, if_false, List.dropLast_concat]
    have hd : (xs ++ [x]).getLastD 0 = x := by simp
    rw [hd, ih]
    simp

theorem drawN_refill (sh : ℕ → List ℕ) (r : ℕ) (h7 : (sh r).length = 7) :
    drawN sh ([], r) 7 = ((sh r).reverse, ([], r + 1)) := by
  rcases List.eq_nil_or_concat (sh r) with hnil | ⟨ys, y, hys⟩
  · rw [hnil] at h7
    simp at h7
  · rw [List.concat_eq_append] at hys
    have hylen : ys.length = 6 := by
      have := h7
      rw [hys] at this
      simp at this
      omega
    rw [show (7 : ℕ) = ys.length + 1 from by omega]
    simp only [drawN, get_next_shape_core, List.isEmpty_nil, if_true]
    rw [hys]
    simp only [List.dropLast_concat]
    have hd : (ys ++ [y]).getLastD 0 = y := by simp
    rw [hd, drawN_pop_all sh ys (r + 1)]
    simp [hys]

theorem drawN_add (sh : ℕ → List ℕ) (m : ℕ) : ∀ (st : List ℕ × ℕ) (n : ℕ),
    drawN sh st (m + n) =
      ((drawN sh st m).1 ++ (drawN sh (drawN sh st m).2 n).1,
        (drawN sh (drawN sh st m).2 n).2) := by
  induction m with
  | zero =>
    intro st n
    simp [drawN]
  | succ m ih =>
    intro st n
    rw [show m + 1 + n = (m + n) + 1 from by omega]
    simp only [drawN, get_next_shape_core]
    rw [ih]
    simp

theorem drawN_bag_cycle (sh : ℕ → List ℕ) (h7 : ∀ j, (sh j).length = 7)
    (k : ℕ) :
    (drawN sh ([], 0) (7 * k)).2 = ([], k) ∧
      (drawN sh ([], 0) (7 * k)).1.length = 7 * k := by
  induction k with
  | zero => simp [drawN]
  | succ k ih =>
    rw [show 7 * (k + 1) = 7 * k + 7 from by ring,
      drawN_add sh (7 * k) ([], 0) 7, ih.1, drawN_refill sh k (h7 k)]
    refine ⟨rfl, ?_⟩
    simp [ih.2, h7 k]

/-- C9: if every bag refill installs a permutation of the 7 shape kinds
(the `random.shuffle` contract), then every window of 7 draws aligned to a
bag boundary is a permutation of all 7 kinds, with no duplicates. -/
theorem C9_bag_boundary_windows (sh : ℕ → List ℕ)
    (hperm : ∀ j, (sh j).Perm [1, 2, 3, 4, 5, 6, 7]) (k : ℕ) :
    ((drawN sh ([], 0) (7 * k + 7)).1.drop (7 * k)).Perm
      [1, 2, 3, 4, 5, 6, 7] ∧
    ((drawN sh ([], 0) (7 * k + 7)).1.drop (7 * k)).Nodup := by
  have h7 : ∀ j, (sh j).length = 7 := fun j => by
    simpa using (hperm j).length_eq
  have hcyc := drawN_bag_cycle sh h7 k
  rw [drawN_add sh (7 * k) ([], 0) 7, hcyc.1, drawN_refill sh k (h7 k)]
  have hdrop :
      (((drawN sh ([], 0) (7 * k)).1 ++ (sh k).reverse).drop (7 * k)) =
        (sh k).reverse := List.drop_left' hcyc.2
  simp only [hdrop]
  have hwin : ((sh k).reverse).Perm [1, 2, 3, 4, 5, 6, 7] :=
    (List.reverse_perm (sh k)).trans (hperm k)
  exact ⟨hwin, hwin.symm.nodup (by decide)⟩

/-- Witness for C9 at the identity shuffle stream and first window. -/
theorem C9_bag_boundary_windows_witness :
    ((drawN shufflesW ([], 0) (7 * 0 + 7)).1.drop (7 * 0)).Perm
      [1, 2, 3, 4, 5, 6, 7] ∧
    ((drawN shufflesW ([], 0) (7 * 0 + 7)).1.drop (7 * 0)).Nodup :=
  C9_bag_boundary_windows shufflesW (fun _ => List.Perm.refl _) 0

theorem b64Val_b64Char : ∀ v, v < 64 → b64Val (b64Char v) = some v := by
  decide

theorem b64Val_lt (c v : ℕ) (h : b64Val c = some v) : c < 128 := by
  unfold b64Val at h
  split_ifs at h with h1 h2 h3 h4 h5
  · omega
  · omega
  · omega
  · omega
  · omega

theorem pyB64DecodeAux_data (c : ℕ) (rest : List ℕ) (st : B64State) (v : ℕ)
    (hv : b64Val c = some v) :
    pyB64DecodeAux (c :: rest) st = pyB64DecodeAux rest (b64DataStep st v) := by
  have hne : c ≠ 61 := by
    intro e
    rw [e, show b64Val 61 = none from by decide] at hv
    exact Option.noConfusion hv
  simp [pyB64DecodeAux, hne, hv]

theorem pyB64Decode_eight (c0 c1 c2 c3 c4 c5 c6 c7 v0 v1 v2 v3 v4 v5 v6 v7 : ℕ)
    (h0 : b64Val c0 = some v0) (h1 : b64Val c1 = some v1)
    (h2 : b64Val c2 = some v2) (h3 : b64Val c3 = some v3)
    (h4 : b64Val c4 = some v4) (h5 : b64Val c5 = some v5)
    (h6 : b64Val c6 = some v6) (h7 : b64Val c7 = some v7) :
    pyB64Decode [c0, c1, c2, c3, c4, c5, c6, c7] =
      .ok [v0 * 4 + v1 / 16, v1 % 16 * 16 + v2 / 4, v2 % 4 * 64 + v3,
        v4 * 4 + v5 / 16, v5 % 16 * 16 + v6 / 4, v6 % 4 * 64 + v7] := by
  have hascii : ∀ c ∈ [c0, c1, c2, c3, c4, c5, c6, c7], c < 128 := by
    intro c hc
    simp only [List.mem_cons, List.not_mem_nil, or_false] at hc
    rcases hc with rfl | rfl | rfl | rfl | rfl | rfl | rfl | rfl
    exacts [b64Val_lt _ _ h0, b64Val_lt _ _ h1, b64Val_lt _ _ h2,
      b64Val_lt _ _ h3, b64Val_lt _ _ h4, b64Val_lt _ _ h5,
      b64Val_lt _ _ h6, b64Val_lt _ _ h7]
  unfold pyB64Decode
  rw [if_pos hascii]
  rw [pyB64DecodeAux_data _ _ _ _ h0]
  rw [show b64DataStep ⟨[], 0, 0, 0⟩ v0 = ⟨[], 1, v0, 0⟩ from rfl]
  rw [pyB64DecodeAux_data _ _ _ _ h1]
  rw [show b64DataStep ⟨[], 1, v0, 0⟩ v1 =
    ⟨[v0 * 4 + v1 / 16], 2, v1 % 16, 0⟩ from rfl]
  rw [pyB64DecodeAux_data _ _ _ _ h2]
  rw [show b64DataStep ⟨[v0 * 4 + v1 / 16], 2, v1 % 16, 0⟩ v2 =
    ⟨[v0 * 4 + v1 / 16, v1 % 16 * 16 + v2 / 4], 3, v2 % 4, 0⟩ from rfl]
  rw [pyB64DecodeAux_data _ _ _ _ h3]
  rw [show b64DataStep
      ⟨[v0 * 4 + v1 / 16, v1 % 16 * 16 + v2 / 4], 3, v2 % 4, 0⟩ v3 =
    ⟨[v0 * 4 + v1 / 16, v1 % 16 * 16 + v2 / 4, v2 % 4 * 64 + v3],
      0, 0, 0⟩ from rfl]
  rw [pyB64DecodeAux_data _ _ _ _ h4]
  rw [show b64DataStep
      ⟨[v0 * 4 + v1 / 16, v1 % 16 * 16 + v2 / 4, v2 % 4 * 64 + v3],
        0, 0, 0⟩ v4 =
    ⟨[v0 * 4 + v1 / 16, v1 % 16 * 16 + v2 / 4, v2 % 4 * 64 + v3],
      1, v4, 0⟩ from rfl]
  rw [pyB64DecodeAux_data _ _ _ _ h5]
  rw [show b64DataStep
      ⟨[v0 * 4 + v1 / 16, v1 % 16 * 16 + v2 / 4, v2 % 4 * 64 + v3],
        1, v4, 0⟩ v5 =
    ⟨[v0 * 4 + v1 / 16, v1 % 16 * 16 + v2 / 4, v2 % 4 * 64 + v3,
      v4 * 4 + v5 / 16], 2, v5 % 16, 0⟩ from rfl]
  rw [pyB64DecodeAux_data _ _ _ _ h6]
  rw [show b64DataStep
      ⟨[v0 * 4 + v1 / 16, v1 % 16 * 16 + v2 / 4, v2 % 4 * 64 + v3,
        v4 * 4 + v5 / 16], 2, v5 % 16, 0⟩ v6 =
    ⟨[v0 * 4 + v1 / 16, v1 % 16 * 16 + v2 / 4, v2 % 4 * 64 + v3,
      v4 * 4 + v5 / 16, v5 % 16 * 16 + v6 / 4], 3, v6 % 4, 0⟩ from rfl]
  rw [pyB64DecodeAux_data _ _ _ _ h7]
  rw [show b64DataStep
      ⟨[v0 * 4 + v1 / 16, v1 % 16 * 16 + v2 / 4, v2 % 4 * 64 + v3,
        v4 * 4 + v5 / 16, v5 % 16 * 16 + v6 / 4], 3, v6 % 4, 0⟩ v7 =
    ⟨[v0 * 4 + v1 / 16, v1 % 16 * 16 + v2 / 4, v2 % 4 * 64 + v3,
      v4 * 4 + v5 / 16, v5 % 16 * 16 + v6 / 4, v6 % 4 * 64 + v7],
      0, 0, 0⟩ from rfl]
  rfl

theorem pyB64Decode_encode6 (b0 b1 b2 b3 b4 b5 : ℕ) (h0 : b0 < 256)
    (h1 : b1 < 256) (h2 : b2 < 256) (h3 : b3 < 256) (h4 : b4 < 256)
    (h5 : b5 < 256) :
    pyB64Decode (pyB64Encode [b0, b1, b2, b3, b4, b5]) =
      .ok [b0, b1, b2, b3, b4, b5] := by
  rw [show pyB64Encode [b0, b1, b2, b3, b4, b5] =
    [b64Char (b0 / 4), b64Char (b0 % 4 * 16 + b1 / 16),
     b64Char (b1 % 16 * 4 + b2 / 64), b64Char (b2 % 64),
     b64Char (b3 / 4), b64Char (b3 % 4 * 16 + b4 / 16),
     b64Char (b4 % 16 * 4 + b5 / 64), b64Char (b5 % 64)] from rfl]
  rw [pyB64Decode_eight _ _ _ _ _ _ _ _
    (b0 / 4) (b0 % 4 * 16 + b1 / 16) (b1 % 16 * 4 + b2 / 64) (b2 % 64)
    (b3 / 4) (b3 % 4 * 16 + b4 / 16) (b4 % 16 * 4 + b5 / 64) (b5 % 64)
    (b64Val_b64Char _ (by omega)) (b64Val_b64Char _ (by omega))
    (b64Val_b64Char _ (by omega)) (b64Val_b64Char _ (by omega))
    (b64Val_b64Char _ (by omega)) (b64Val_b64Char _ (by omega))
    (b64Val_b64Char _ (by omega)) (b64Val_b64Char _ (by omega))]
  have e0 : b0 / 4 * 4 + (b0 % 4 * 16 + b1 / 16) / 16 = b0 := by omega
  have e1 : (b0 % 4 * 16 + b1 / 16) % 16 * 16 + (b1 % 16 * 4 + b2 / 64) / 4 =
      b1 := by omega
  have e2 : (b1 % 16 * 4 + b2 / 64) % 4 * 64 + b2 % 64 = b2 := by omega
  have e3 : b3 / 4 * 4 + (b3 % 4 * 16 + b4 / 16) / 16 = b3 := by omega
  have e4 : (b3 % 4 * 16 + b4 / 16) % 16 * 16 + (b4 % 16 * 4 + b5 / 64) / 4 =
      b4 := by omega
  have e5 : (b4 % 16 * 4 + b5 / 64) % 4 * 64 + b5 % 64 = b5 := by omega
  rw [e0, e1, e2, e3, e4, e5]

theorem decDigitsAux_eq_digits (fuel : ℕ) : ∀ n, n ≤ fuel →
    decDigitsAux fuel n = Nat.digits 10 n := by
  induction fuel with
  | zero =>
    intro n hn
    have : n = 0 := by omega
    subst this
    simp [decDigitsAux]
  | succ fuel ih =>
    intro n hn
    by_cases hz : n = 0
    · subst hz
      simp [decDigitsAux]
    · rw [show decDigitsAux (fuel + 1) n =
        n % 10 :: decDigitsAux fuel (n / 10) from by
          simp [decDigitsAux, hz]]
      rw [ih (n / 10) (by omega),
        Nat.digits_def' (by norm_num : (1 : ℕ) < 10) (Nat.pos_of_ne_zero hz)]

theorem foldl_rev_digits (l : List ℕ) : ∀ a : ℕ,
    ((l.reverse.map (· + 48)).foldl (fun acc c => acc * 10 + (c - 48)) a) =
      a * 10 ^ l.length + Nat.ofDigits 10 l := by
  induction l with
  | nil =>
    intro a
    simp [Nat.ofDigits]
  | cons d t ih =>
    intro a
    rw [List.reverse_cons, List.map_append, List.foldl_append, ih a]
    simp only [List.map_cons, List.map_nil, List.foldl_cons, List.foldl_nil]
    rw [Nat.ofDigits_cons, List.length_cons, Nat.add_sub_cancel, pow_succ]
    ring

theorem parseDec_decRepr (n : ℕ) : parseDec (decRepr n) = some n := by
  by_cases hz : n = 0
  · subst hz
    decide
  · unfold decRepr parseDec
    rw [if_neg hz, decDigitsAux_eq_digits n n le_rfl]
    rw [if_pos ?_]
    · congr 1
      rw [foldl_rev_digits]
      simp [Nat.ofDigits_digits]
    · constructor
      · simp [Nat.digits_ne_nil_iff_ne_zero, hz]
      · intro c hc
        simp only [List.mem_map, List.mem_reverse] at hc
        obtain ⟨d, hd, rfl⟩ := hc
        have := Nat.digits_lt_base (by norm_num) hd
        omega

theorem decRepr_no_dot (n : ℕ) : 46 ∉ decRepr n := by
  unfold decRepr
  split
  · decide
  · intro hmem
    simp only [List.mem_map, List.mem_reverse] at hmem
    obtain ⟨d, _, hd⟩ := hmem
    omega

/-- C7: for every valid dotted-quad IPv4 address and port in `[0, 65535]`,
encoding succeeds and decoding the join code returns the original pair. -/
theorem C7_join_code_roundtrip (ip : List ℕ) (port : ℕ) (hip : validIPv4 ip)
    (hport : port < 65536) :
    ∃ tok, ipv4_port_to_base64 ip port = some tok ∧
      base64_to_ipv4_port tok = .ok (ip, port) := by
  obtain ⟨a, b, c, d, ha, hb, hc, hd, rfl⟩ := hip
  have hnodot : ∀ l ∈ [decRepr a, decRepr b, decRepr c, decRepr d],
      (46 : ℕ) ∉ l := by
    intro l hl
    simp only [List.mem_cons, List.not_mem_nil, or_false] at hl
    rcases hl with rfl | rfl | rfl | rfl <;> exact decRepr_no_dot _
  have hsplit := List.splitOn_intercalate _ 46 hnodot (by simp)
  refine ⟨pyB64Encode [a, b, c, d, port / 256, port % 256], ?_, ?_⟩
  · simp only [ipv4_port_to_base64, hsplit]
    simp only [List.get?_cons_zero, List.get?_cons_succ, Option.some_bind,
      parseDec_decRepr]
    rw [if_pos ⟨ha, hb, hc, hd, hport⟩]
  · simp only [base64_to_ipv4_port,
      pyB64Decode_encode6 a b c d (port / 256) (port % 256) ha hb hc hd
        (by omega) (by omega)]
    norm_num
    omega

/-- Witness for C7 at `"1.2.3.4"` and port 8080. -/
theorem C7_join_code_roundtrip_witness :
    ∃ tok, ipv4_port_to_base64 ipW 8080 = some tok ∧
      base64_to_ipv4_port tok = .ok (ipW, 8080) :=
  C7_join_code_roundtrip ipW 8080
    ⟨1, 2, 3, 4, by omega, by omega, by omega, by omega, by decide⟩
    (by omega)

/-- Counterexample for C8: the token `"AAAA"` decodes to 3 bytes, so it is
an invalid join code, but the failure raised is `struct.error`, not the
dedicated `MalformedCodeError` the claim requires (which the source never
defines). -/
theorem C8_malformed_counterexample :
    base64_to_ipv4_port [65, 65, 65, 65] = .error PyError.structError ∧
      PyError.structError ≠ PyError.malformedCodeError := by
  exact ⟨rfl, by decide⟩

theorem pyB64Decode_error_cases (tok : List ℕ) (e : PyError)
    (h : pyB64Decode tok = .error e) :
    e = PyError.valueError ∨ e = PyError.binasciiError := by
  unfold pyB64Decode at h
  split_ifs at h
  · cases h' : pyB64DecodeAux tok ⟨[], 0, 0, 0⟩ with
    | error u =>
      rw [h'] at h
      cases h
      exact Or.inr rfl
    | ok bytes =>
      rw [h'] at h
      exact Except.noConfusion h
  · cases h
    exact Or.inl rfl

/-- C8 (amended): decoding any corrupted or short token — one the text
decoding rejects or whose decoded byte length is not exactly 6 — fails, but
with the underlying exception: the plain `ValueError` of the ASCII check,
`binascii.Error`, or `struct.error`; no decode ever produces a dedicated
malformed-code failure. -/
theorem C8_decode_failure_amended :
    (∀ tok : List ℕ,
      (∀ bytes, pyB64Decode tok = .ok bytes → bytes.length ≠ 6) →
      ∃ e, base64_to_ipv4_port tok = .error e ∧
        (e = PyError.valueError ∨ e = PyError.binasciiError ∨
          e = PyError.structError)) ∧
    (∀ tok : List ℕ,
      base64_to_ipv4_port tok ≠ .error PyError.malformedCodeError) := by
  constructor
  · intro tok hbad
    cases h : pyB64Decode tok with
    | error u =>
      refine ⟨u, by simp [base64_to_ipv4_port, h], ?_⟩
      rcases pyB64Decode_error_cases tok u h with rfl | rfl
      · exact Or.inl rfl
      · exact Or.inr (Or.inl rfl)
    | ok bytes =>
      have hlen := hbad bytes h
      refine ⟨.structError, ?_, Or.inr (Or.inr rfl)⟩
      simp only [base64_to_ipv4_port, h]
      split_ifs with hA hB
      · rfl
      · rfl
      · exfalso
        rw [List.length_take] at hA
        rw [List.length_drop] at hB
        omega
  · intro tok
    cases h : pyB64Decode tok with
    | error u =>
      rcases pyB64Decode_error_cases tok u h with rfl | rfl <;>
        simp [base64_to_ipv4_port, h]
    | ok bytes =>
      simp only [base64_to_ipv4_port, h]
      split_ifs <;> simp

/-- Witness for C8 (amended) at the 1-character token `"A"`, which the
base64 decoding itself rejects. -/
theorem C8_decode_failure_amended_witness :
    ∃ e, base64_to_ipv4_port [65] = .error e ∧
      (e = PyError.valueError ∨ e = PyError.binasciiError ∨
        e = PyError.structError) :=
  C8_decode_failure_amended.1 [65] fun bytes h => by
    rw [show pyB64Decode [65] = Except.error PyError.binasciiError from rfl] at h
    exact Except.noConfusion h

/-- Witness for C10 at the Square shape. -/
theorem C10_rotate_left_rotate_right_witness :
    (Shape.set_shape Tetrominoe.SquareShape).rotate_right =
        Shape.set_shape Tetrominoe.SquareShape ∧
      (Shape.set_shape Tetrominoe.SquareShape).rotate_left =
        Shape.set_shape Tetrominoe.SquareShape :=
  (C10_rotate_left_rotate_right (Shape.set_shape Tetrominoe.SquareShape)).2 rfl

end TetrisForge
